import Mathlib

/-!
Verification development for the wallet cryptographic core:
a shallow embedding of the `elgamal` secret-key / baby-step giant-step code
and of the `mobile_wallet` boundary functions, with the external
collaborators (canonical byte serialization, the digest, the
Dodis-Yampolskiy PRF crate and the `id::account_holder` proof layer)
modelled from the specification where their sources are not part of the
repository.
-/

/-! ## Canonical byte serialization (modelled from the spec) -/

/-- Modelled from the spec: the canonical serialization of a `u64` value
(`crypto_common` is not part of the sources); a fixed-width 8-byte
big-endian field. -/
def u64Bytes (n : Nat) : List Nat :=
  [n / 2 ^ 56 % 256, n / 2 ^ 48 % 256, n / 2 ^ 40 % 256, n / 2 ^ 32 % 256,
   n / 2 ^ 24 % 256, n / 2 ^ 16 % 256, n / 2 ^ 8 % 256, n % 256]

/-- Modelled from the spec: the canonical serialization of a `u32` value
(`crypto_common` is not part of the sources); a fixed-width 4-byte
big-endian field. -/
def u32Bytes (n : Nat) : List Nat :=
  [n / 2 ^ 24 % 256, n / 2 ^ 16 % 256, n / 2 ^ 8 % 256, n % 256]

/-- Modelled from the spec: an account address is a fixed 32-byte value
(`from_address(32B)` in the wire layout); the `AccountAddress` type itself
is not part of the sources. -/
structure AccountAddress where
  bytes : List Nat
  len32 : bytes.length = 32

/-- Modelled from the spec: serializing an `AccountAddress` emits its 32
bytes verbatim. -/
def putAccountAddress (a : AccountAddress) : List Nat := a.bytes

/-- Modelled from the spec: an `Amount` is a `u64`, serialized as a
fixed-width 8-byte field. -/
def putAmount (amount : Nat) : List Nat := u64Bytes amount

/-- Context for a transaction to send (struct `TransferContext` in
`mobile_wallet/src/lib.rs`; the `to` and `keys` fields are not needed by
the byte-layout claims). `from` is a Lean keyword, so the field is named
`from_addr`. -/
structure TransferContext where
  from_addr : AccountAddress
  expiry : Nat
  nonce : Nat
  energy : Nat

/-- Embedding of `make_transaction_bytes` from `mobile_wallet/src/lib.rs`:
successive `put` calls on a growing buffer, then one digest over the body.
The digest itself (the `sha2` crate) is external to the sources and is
passed in as a function. `payload_size` is the payload length cast to
`u32`, i.e. reduced modulo `2 ^ 32`. -/
def make_transaction_bytes (digest : List Nat → List Nat)
    (ctx : TransferContext) (payload_bytes : List Nat) :
    List Nat × List Nat :=
  let payload_size : Nat := payload_bytes.length % 2 ^ 32
  let body : List Nat := []
  let body := body ++ putAccountAddress ctx.from_addr
  let body := body ++ u64Bytes ctx.nonce
  let body := body ++ u64Bytes ctx.energy
  let body := body ++ u32Bytes payload_size
  let body := body ++ u64Bytes ctx.expiry
  let body := body ++ payload_bytes
  (digest body, body)

/-- Embedding of the payload construction in `create_transfer_aux`
(`mobile_wallet/src/lib.rs`): the type tag `3`, the serialized recipient
address, and the serialized amount. The source then asserts
`payload_size == 41`. -/
def create_transfer_payload (ctx_to : AccountAddress) (amount : Nat) :
    List Nat :=
  [3] ++ putAccountAddress ctx_to ++ putAmount amount

/-! ## Anonymity-revoker threshold (`create_id_request_and_private_data_aux`) -/

/-- Embedding of `usize::try_into::<u8>()`: succeeds exactly when the value
fits in 8 bits. -/
def u8_try_into (n : Nat) : Option Nat :=
  if n ≤ 255 then some n else none

/-- Embedding of the threshold computation in
`create_id_request_and_private_data_aux` (`mobile_wallet/src/lib.rs`):
`ensure!(l > 0, ...)`, then `Threshold(max((l-1).try_into().unwrap_or(255), 1))`. -/
def compute_ar_threshold (l : Nat) : Except String Nat :=
  if l > 0 then
    Except.ok (max ((u8_try_into (l - 1)).getD 255) 1)
  else
    Except.error "ArInfos should have at least 1 anonymity revoker."

/-! ## ElGamal decryption (`elgamal/src/secret.rs`) -/

/-- An ElGamal ciphertext: a pair of group elements (tuple struct
`Cipher(pub C, pub C)` in the `elgamal` crate); field `c0` is `.0` and
`c1` is `.1`. -/
structure Cipher (G : Type) where
  c0 : G
  c1 : G

/-- A decrypted message: a group element (struct `Message` in the
`elgamal` crate). -/
structure Message (G : Type) where
  value : G

/-- Elgamal secret key packed together with a chosen generator
(`elgamal/src/secret.rs`). The scalar field of the curve is modelled by
the integers acting on the group. -/
structure SecretKey (G : Type) where
  generator : G
  scalar : ℤ

/-- Embedding of `SecretKey::decrypt` (`elgamal/src/secret.rs`):
`kag = c.0 * scalar`, `value = c.1 - kag`. -/
def SecretKey.decrypt {G : Type} [AddCommGroup G] (sk : SecretKey G)
    (c : Cipher G) : Message G :=
  let x := c.c0
  let kag := sk.scalar • x
  let y := c.c1
  let value := y - kag
  { value := value }

/-- Modelled from the spec: `encrypted_transfers::aggregate` is not part
of the sources; it is component-wise group addition of the two
ciphertexts. -/
def aggregate {G : Type} [AddCommGroup G] (left right : Cipher G) :
    Cipher G :=
  { c0 := left.c0 + right.c0, c1 := left.c1 + right.c1 }

/-! ## Policy validation (`create_credential_aux`) -/

/-- Embedding of the policy-building loop in `create_credential_aux`
(`mobile_wallet/src/lib.rs`): for each requested tag, look it up in the
identity object's attribute list; bail with an unknown-attribute error if
absent, insert into `policy_vec` and bail with a duplicate-reveal error if
an entry was already present. Attribute tags and values are modelled as
naturals, the `BTreeMap`s as association lists whose lookup finds the
most recent insertion. -/
def buildPolicyVec (alist : List (Nat × Nat)) :
    List Nat → List (Nat × Nat) → Except String (List (Nat × Nat))
  | [], policy_vec => Except.ok policy_vec
  | tag :: tags, policy_vec =>
    match alist.lookup tag with
    | some att =>
      if (policy_vec.lookup tag).isSome then
        Except.error "Cannot reveal an attribute more than once."
      else
        buildPolicyVec alist tags ((tag, att) :: policy_vec)
    | none =>
      Except.error "Cannot reveal an attribute which is not part of the attribute list."

/-! ## The PRF and the identity flow

The `dodis_yampolskiy_prf` crate and the `id::account_holder` proof layer
are not part of the sources; they are modelled from the spec. The curve
group of prime order `q` is represented in exponent form by `ZMod q`
(written additively), so a scalar acts on a group element by
multiplication in `ZMod q`. -/

/-- Modelled from the spec: the `dodis_yampolskiy_prf` crate is not part
of the sources. `prf_exponent k x` is the inverse of `k + x` in the
scalar field, undefined exactly when `k + x = 0` (the PRF is
domain-restricted and evaluation failures are skipped during account
enumeration). The scalar field has prime order `q`, so the inverse is
written via Fermat's little theorem to keep the definition executable. -/
def prf_exponent (q : Nat) (k : ZMod q) (x : Nat) : Option (ZMod q) :=
  if k + (x : ZMod q) = 0 then none
  else some ((k + (x : ZMod q)) ^ (q - 2))

/-- Modelled from the spec: the registration ID is the group element
whose exponent is the PRF exponent, so `prf` succeeds exactly when
`prf_exponent` is defined at the same input. -/
def prf (q : Nat) (g : ZMod q) (k : ZMod q) (x : Nat) : Option (ZMod q) :=
  (prf_exponent q k x).map (fun s => s * g)

/-- Modelled from the spec: `account_holder::generate_pio` is not part of
the sources; it computes the initial registration ID via the PRF at
account number 0 and fails when proof construction fails, so it succeeds
only when the PRF at 0 is defined. Proof-construction success is
abstracted by the `proofs_ok` flag; the returned value is the `reg_id`
field of the pre-identity object. -/
def generate_pre_identity (q : Nat) (g : ZMod q) (prf_key : ZMod q)
    (proofs_ok : Bool) : Option (ZMod q) :=
  if proofs_ok then prf q g prf_key 0 else none

/-- The Rust `.unwrap()` on `None` aborts; in this embedding the abort is
represented by an error carrying this marker message, distinct from every
error message the source produces. -/
def panicMsg : String := "panic: unwrap on None"

/-- Decidable equality of `Except` values, so that concrete runs of the
embedded operations can be checked by evaluation. -/
instance exceptDecidableEq {e a : Type} [DecidableEq e] [DecidableEq a] :
    DecidableEq (Except e a) := fun x y =>
  match x, y with
  | Except.error e1, Except.error e2 =>
    if h : e1 = e2 then isTrue (by rw [h])
    else isFalse (fun hc => h (Except.error.inj hc))
  | Except.ok a1, Except.ok a2 =>
    if h : a1 = a2 then isTrue (by rw [h])
    else isFalse (fun hc => h (Except.ok.inj hc))
  | Except.error _, Except.ok _ => isFalse (fun hc => Except.noConfusion hc)
  | Except.ok _, Except.error _ => isFalse (fun hc => Except.noConfusion hc)

/-- The fields of the `initialAccountData` part of the response of
`create_id_request_and_private_data_aux` that the claims are about,
together with the chosen threshold. -/
structure IdRequestResponse (q : Nat) (Addr : Type) where
  threshold : Nat
  reg_id : ZMod q
  accountAddress : Addr
  encryptionSecretKey_scalar : ZMod q
deriving DecidableEq

/-- Embedding of `create_id_request_and_private_data_aux`
(`mobile_wallet/src/lib.rs`): compute the anonymity-revoker threshold
(failing on an empty revoker set), generate the pre-identity object
(failing if that fails), set the account address to
`AccountAddress::new(reg_id)` — `AccountAddress::new` is external and
passed as `address_new` — and build the encryption secret key by
unwrapping `prf_key.prf_exponent(0)`. -/
def create_id_request_core (q : Nat) (Addr : Type) (g : ZMod q)
    (address_new : ZMod q → Addr) (num_ars : Nat) (prf_key : ZMod q)
    (proofs_ok : Bool) : Except String (IdRequestResponse q Addr) :=
  match compute_ar_threshold num_ars with
  | Except.error e => Except.error e
  | Except.ok threshold =>
    match generate_pre_identity q g prf_key proofs_ok with
    | none => Except.error "Generating the pre-identity object failed."
    | some reg_id =>
      match prf_exponent q prf_key 0 with
      | some s =>
        Except.ok { threshold := threshold, reg_id := reg_id,
                    accountAddress := address_new reg_id,
                    encryptionSecretKey_scalar := s }
      | none => Except.error panicMsg

/-- Embedding of the loop of `generate_accounts_aux`
(`mobile_wallet/src/lib.rs`): for each account number, if the PRF
evaluation succeeds, unwrap `prf_exponent` and record the derived
address and encryption secret; if it fails, skip the account number.
`count` is the number of remaining account numbers. -/
def generate_accounts_loop (q : Nat) (Addr : Type) (g : ZMod q)
    (address_new : ZMod q → Addr) (prf_key : ZMod q) :
    Nat → Nat → Except String (List (Addr × ZMod q))
  | _, 0 => Except.ok []
  | acc_num, count + 1 =>
    match prf q g prf_key acc_num with
    | some reg_id =>
      match prf_exponent q prf_key acc_num with
      | some enc_key =>
        Except.map (fun rest => (address_new reg_id, enc_key) :: rest)
          (generate_accounts_loop q Addr g address_new prf_key (acc_num + 1) count)
      | none => Except.error panicMsg
    | none => generate_accounts_loop q Addr g address_new prf_key (acc_num + 1) count

/-- Embedding of `generate_accounts_aux` (`mobile_wallet/src/lib.rs`):
`let start: u8 = try_get(&v, "start").unwrap_or(0)` — `start_field` is
the result of `try_get`, an error both when the field is absent and when
it fails to deserialize — then the loop over
`start..max_accounts`. -/
def generate_accounts_core (q : Nat) (Addr : Type) (g : ZMod q)
    (address_new : ZMod q → Addr) (prf_key : ZMod q)
    (start_field : Except String Nat) (max_accounts : Nat) :
    Except String (List (Addr × ZMod q)) :=
  let start := match start_field with
    | Except.ok s => s
    | Except.error _ => 0
  generate_accounts_loop q Addr g address_new prf_key start (max_accounts - start)

/-- The `values` part of a `CredentialDeploymentInfo` needed by the
claims: the PRF-derived registration ID `cred_id`. -/
structure CdiValues (q : Nat) where
  cred_id : ZMod q

/-- A `CredentialDeploymentInfo` as produced by the external
`account_holder::create_credential`. -/
structure Cdi (q : Nat) where
  values : CdiValues q

/-- The `Either`-style credential target: `Left(expiry)` for a new
account, `Right(address)` for an existing one. The mobile wallet always
uses `Left`. -/
inductive NewOrExisting (Addr : Type) where
  | left (expiry : Nat)
  | right (address : Addr)

/-- The fields of the response of `create_credential_aux` that the
claims are about. -/
structure CredentialResponse (q : Nat) (Addr : Type) where
  accountAddress : Addr
  encryptionSecretKey_scalar : ZMod q
  credential : Cdi q

/-- Embedding of `create_credential_aux` (`mobile_wallet/src/lib.rs`):
build the policy from the requested tags, call the external
`account_holder::create_credential` (abstracted as the
`create_credential` argument), compute the address from the credential's
`cred_id` via `AccountAddress::new` (abstracted as `address_new`) since
the target is always a new account, and unwrap
`prf_key.prf_exponent(acc_num)` for the encryption secret key. -/
def create_credential_core (q : Nat) (Addr : Type)
    (address_new : ZMod q → Addr)
    (create_credential : Nat → List (Nat × Nat) → Except String (Cdi q))
    (prf_key : ZMod q) (alist : List (Nat × Nat)) (tags : List Nat)
    (acc_num : Nat) (expiry : Nat) :
    Except String (CredentialResponse q Addr) :=
  let new_or_existing : NewOrExisting Addr := NewOrExisting.left expiry
  match buildPolicyVec alist tags [] with
  | Except.error e => Except.error e
  | Except.ok policy_vec =>
    match create_credential acc_num policy_vec with
    | Except.error e => Except.error e
    | Except.ok cdi =>
      let address := match new_or_existing with
        | NewOrExisting.left _ => address_new cdi.values.cred_id
        | NewOrExisting.right a => a
      match prf_exponent q prf_key acc_num with
      | some enc_key =>
        Except.ok { accountAddress := address,
                    encryptionSecretKey_scalar := enc_key,
                    credential := cdi }
      | none => Except.error panicMsg

/-! ## The boundary (`encode_response`, `decrypt_encrypted_amount`) -/

/-- Embedding of `CString::new`: fails exactly when the string contains
an interior NUL byte. -/
def CString_new (s : String) : Option String :=
  if s.data.contains (Char.ofNat 0) then none else some s

/-- Embedding of `signal_error` (`mobile_wallet/src/lib.rs`): set the
success flag to 0 and encode the error message as a C string;
`CString::new(err_msg).expect(...)` aborts the process when the message
contains an interior NUL byte. The abort is `none`; a returned flag and
message is `some`. -/
def signal_error (err_msg : String) : Option (Nat × String) :=
  (CString_new err_msg).map (fun cstr => (0, cstr))

/-- Embedding of `encode_response` (`mobile_wallet/src/lib.rs`): on a
successful response, encode it as a C string (signalling an error if it
contains a NUL byte) and set the flag to 1; on a failed response, signal
the error. `none` is the aborted process: the `.expect` panic inside
`signal_error` on a NUL byte in the error message itself. -/
def encode_response (response : Except String String) :
    Option (Nat × String) :=
  match response with
  | Except.ok s =>
    match CString_new s with
    | some cstr => some (1, cstr)
    | none => signal_error "Could not encode response: interior nul byte found"
  | Except.error e => signal_error ("Could not produce response: " ++ e)

/-- Embedding of the exported `decrypt_encrypted_amount`
(`mobile_wallet/src/lib.rs`): `input_ptr` is `none` for a null pointer,
`some none` for a non-UTF-8 buffer and `some (some s)` for a valid
string; the result pairs the success flag with the returned `u64`. -/
def decrypt_encrypted_amount_ffi (input_ptr : Option (Option String))
    (aux : String → Except String Nat) : Nat × Nat :=
  match input_ptr with
  | none => (0, 0)
  | some none => (0, 0)
  | some (some s) =>
    match aux s with
    | Except.ok v => (1, v)
    | Except.error _ => (0, 0)

/-! ## Baby-step giant-step (`elgamal/src/secret.rs`) -/

/-- The baby-step giant-step instance (`elgamal/src/secret.rs`): the
precomputed table, the point `base^{-m}`, and the table size `m`. The
`HashMap<Vec<u8>, u64>` is modelled as the list of inserted
(key, value) pairs in insertion order, keyed by the group element itself
(`to_bytes` of the external serialization is injective on group
elements). -/
structure BabyStepGiantStep (G : Type) where
  table : List (G × Nat)
  inverse_point : G
  m : Nat

/-- `HashMap::get` on the insertion list: the value of the most recent
insertion with the given key. -/
def tableGet {G : Type} [DecidableEq G] (table : List (G × Nat)) (y : G) :
    Option Nat :=
  Option.map Prod.snd (List.find? (fun p => decide (p.1 = y)) table.reverse)

/-- Embedding of `BabyStepGiantStep::new` (`elgamal/src/secret.rs`):
insert `base_j ↦ j` for `j ∈ [0, m)` where `base_j` starts at the zero
point and grows by `base` each step, leaving `base_j = m • base` at the
end, whose inverse is stored. -/
def BabyStepGiantStep.new {G : Type} [AddCommGroup G] [DecidableEq G]
    (base : G) (m : Nat) : BabyStepGiantStep G :=
  { table := (List.range m).map (fun j => (j • base, j))
    inverse_point := -(m • base)
    m := m }

/-- The loop of `BabyStepGiantStep::discrete_log`: probe the table, and
on a miss add `inverse_point` and continue. The Rust loop runs `i` over
`0..=u64::MAX`; the remaining number of iterations is the `fuel`
argument, and falling off the end (`unreachable!()`) is `none`. -/
def discrete_log_loop {G : Type} [AddCommGroup G] [DecidableEq G]
    (s : BabyStepGiantStep G) : Nat → Nat → G → Option Nat
  | 0, _, _ => none
  | fuel + 1, i, y =>
    match tableGet s.table y with
    | some j => some (i * s.m + j)
    | none => discrete_log_loop s fuel (i + 1) (y + s.inverse_point)

/-- Embedding of `BabyStepGiantStep::discrete_log`
(`elgamal/src/secret.rs`): run the loop with `i` ranging over the
`2 ^ 64` values `0..=u64::MAX`, starting from `v`. -/
def BabyStepGiantStep.discrete_log {G : Type} [AddCommGroup G]
    [DecidableEq G] (s : BabyStepGiantStep G) (v : G) : Option Nat :=
  discrete_log_loop s (2 ^ 64) 0 v

/-! ## Theorems -/

/-- C2: for every recipient address and amount, the plain-transfer payload
built by `create_transfer_aux` — type tag `3`, serialized recipient,
serialized amount — is exactly 41 bytes long, so the
`assert_eq!(payload_size, 41)` never fails. -/
theorem create_transfer_payload_length_41 (ctx_to : AccountAddress)
    (amount : Nat) :
    (create_transfer_payload ctx_to amount).length = 41 := by
  simp [create_transfer_payload, putAccountAddress, putAmount, u64Bytes,
    ctx_to.len32]

theorem u32Bytes_mod (n : Nat) : u32Bytes (n % 2 ^ 32) = u32Bytes n := by
  simp only [u32Bytes, List.cons.injEq, and_true]
  refine ⟨?_, ?_, ?_, ?_⟩ <;> omega

/-- C3: `make_transaction_bytes` produces a body equal to the
concatenation, in this exact order, of the 32-byte from-address, the
`u64` nonce, the `u64` energy, the payload length as a `u32`, the `u64`
expiry, and the payload bytes, and returns as hash the single digest of
that body (the digest function, SHA-256 in the source, is external and
abstracted). -/
theorem make_transaction_bytes_layout (digest : List Nat → List Nat)
    (ctx : TransferContext) (payload_bytes : List Nat) :
    (make_transaction_bytes digest ctx payload_bytes).2
      = putAccountAddress ctx.from_addr ++ u64Bytes ctx.nonce
        ++ u64Bytes ctx.energy ++ u32Bytes payload_bytes.length
        ++ u64Bytes ctx.expiry ++ payload_bytes
    ∧ (make_transaction_bytes digest ctx payload_bytes).1
      = digest (make_transaction_bytes digest ctx payload_bytes).2
    ∧ (putAccountAddress ctx.from_addr).length = 32
    ∧ (u64Bytes ctx.nonce).length = 8
    ∧ (u64Bytes ctx.energy).length = 8
    ∧ (u32Bytes payload_bytes.length).length = 4
    ∧ (u64Bytes ctx.expiry).length = 8 := by
  refine ⟨?_, rfl, ?_, rfl, rfl, rfl, rfl⟩
  · simp only [make_transaction_bytes, List.nil_append, List.append_assoc]
    rw [show payload_bytes.length % 2 ^ 32 = payload_bytes.length % 2 ^ 32 from rfl,
      u32Bytes_mod]
  · simp [putAccountAddress, ctx.from_addr.len32]

/-- C4 counterexample: with 257 anonymity revokers, `(l - 1).try_into()`
to `u8` fails and `unwrap_or(255)` clamps, so the computed threshold is
255, not `max(1, 257 - 1) = 256` as the claim requires. -/
theorem ar_threshold_claim_false_at_257 :
    compute_ar_threshold 257 = Except.ok 255
      ∧ (255 : Nat) ≠ max 1 (257 - 1) := by
  exact ⟨rfl, by decide⟩

/-- C4 (amended): `create_id_request_and_private_data` fails with an
error when the anonymity-revoker set is empty, and for every non-empty
set of size `l` it sets the threshold to `max(1, min(l - 1, 255))`, the
size minus one clamped to the `u8` range. -/
theorem ar_threshold_spec (q : Nat) (Addr : Type) (g : ZMod q)
    (address_new : ZMod q → Addr) (prf_key : ZMod q) (proofs_ok : Bool)
    (l : Nat) :
    compute_ar_threshold l
      = (if l = 0 then
          Except.error "ArInfos should have at least 1 anonymity revoker."
        else Except.ok (max 1 (min (l - 1) 255)))
    ∧ create_id_request_core q Addr g address_new 0 prf_key proofs_ok
      = Except.error "ArInfos should have at least 1 anonymity revoker." := by
  constructor
  · rcases Nat.eq_zero_or_pos l with h | h
    · simp [compute_ar_threshold, h]
    · rw [if_neg (by omega)]
      unfold compute_ar_threshold u8_try_into
      rw [if_pos h]
      congr 1
      by_cases h2 : l - 1 ≤ 255
      · rw [if_pos h2]
        simp only [Option.getD_some]
        omega
      · rw [if_neg h2]
        simp only [Option.getD_none]
        omega
  · rfl

theorem buildPolicyVec_ok (alist : List (Nat × Nat)) :
    ∀ (tags : List Nat) (pv r : List (Nat × Nat)),
      buildPolicyVec alist tags pv = Except.ok r →
      tags.Nodup ∧ (∀ t ∈ tags, (alist.lookup t).isSome)
        ∧ ∀ t ∈ tags, pv.lookup t = none := by
  intro tags
  induction tags with
  | nil => intro pv r _; simp
  | cons tag tags ih =>
    intro pv r h
    rw [buildPolicyVec] at h
    cases hl : alist.lookup tag with
    | none => rw [hl] at h; exact absurd h (by simp)
    | some att =>
      rw [hl] at h
      dsimp only at h
      by_cases hpv : (pv.lookup tag).isSome
      · rw [if_pos hpv] at h; exact absurd h (by simp)
      · rw [if_neg hpv] at h
        rw [Option.not_isSome_iff_eq_none] at hpv
        obtain ⟨hnd, hknown, hdisj⟩ := ih ((tag, att) :: pv) r h
        refine ⟨?_, ?_, ?_⟩
        · refine List.nodup_cons.mpr ⟨?_, hnd⟩
          intro hmem
          have hcons := hdisj tag hmem
          simp [List.lookup] at hcons
        · intro t ht
          rcases List.mem_cons.mp ht with rfl | ht'
          · simp [hl]
          · exact hknown t ht'
        · intro t ht
          rcases List.mem_cons.mp ht with rfl | ht'
          · exact hpv
          · have hcons := hdisj t ht'
            by_cases htt : t = tag
            · subst htt; exact hpv
            · have hb : (t == tag) = false := beq_eq_false_iff_ne.mpr htt
              simpa [List.lookup, hb] using hcons

theorem buildPolicyVec_allKnown (alist : List (Nat × Nat)) :
    ∀ (tags : List Nat) (pv : List (Nat × Nat)),
      (∀ t ∈ tags, (alist.lookup t).isSome) →
      buildPolicyVec alist tags pv
          = Except.error "Cannot reveal an attribute more than once."
        ∨ ∃ r, buildPolicyVec alist tags pv = Except.ok r := by
  intro tags
  induction tags with
  | nil => intro pv _; exact Or.inr ⟨pv, rfl⟩
  | cons tag tags ih =>
    intro pv hknown
    rw [buildPolicyVec]
    cases hl : alist.lookup tag with
    | none =>
      have := hknown tag (by simp)
      rw [hl] at this
      exact absurd this (by simp)
    | some att =>
      dsimp only
      by_cases hpv : (pv.lookup tag).isSome
      · rw [if_pos hpv]; exact Or.inl rfl
      · rw [if_neg hpv]
        exact ih ((tag, att) :: pv)
          (fun t ht => hknown t (List.mem_cons_of_mem _ ht))

theorem buildPolicyVec_unknown (alist : List (Nat × Nat)) :
    ∀ (tags : List Nat) (pv : List (Nat × Nat)),
      tags.Nodup → (∀ t ∈ tags, pv.lookup t = none) →
      (∃ t ∈ tags, alist.lookup t = none) →
      buildPolicyVec alist tags pv
        = Except.error "Cannot reveal an attribute which is not part of the attribute list." := by
  intro tags
  induction tags with
  | nil => intro pv _ _ hex; simp at hex
  | cons tag tags ih =>
    intro pv hnd hdisj hex
    rw [buildPolicyVec]
    cases hl : alist.lookup tag with
    | none => rfl
    | some att =>
      dsimp only
      have hpv : ¬ (pv.lookup tag).isSome := by
        rw [hdisj tag (by simp)]; simp
      rw [if_neg hpv]
      apply ih
      · exact (List.nodup_cons.mp hnd).2
      · intro t ht
        have htt : t ≠ tag := by
          rintro rfl
          exact (List.nodup_cons.mp hnd).1 ht
        have hb : (t == tag) = false := beq_eq_false_iff_ne.mpr htt
        simp [List.lookup, hb, hdisj t (List.mem_cons_of_mem _ ht)]
      · rcases hex with ⟨t, ht, hnone⟩
        rcases List.mem_cons.mp ht with rfl | ht'
        · rw [hl] at hnone; exact absurd hnone (by simp)
        · exact ⟨t, ht', hnone⟩

/-- C5 counterexample: with an empty attribute list and tag 0 revealed
twice, the list contains the same tag twice, but the operation fails with
the unknown-attribute error, not the duplicate-reveal error the claim
requires. -/
theorem policy_duplicate_of_unknown_counterexample :
    buildPolicyVec [] [0, 0] []
        = Except.error "Cannot reveal an attribute which is not part of the attribute list."
      ∧ Except.error (ε := String) (α := List (Nat × Nat))
          "Cannot reveal an attribute which is not part of the attribute list."
        ≠ Except.error "Cannot reveal an attribute more than once." := by
  refine ⟨rfl, fun hcontra => ?_⟩
  exact absurd (Except.error.inj hcontra) (by decide)

/-- C5 (amended): if every revealed tag is present in the attribute list
and some tag occurs twice, `create_credential` fails with the
duplicate-reveal error; if no tag occurs twice and some tag is absent
from the attribute list, it fails with the unknown-attribute error; and
in general a revealed-tags list with a duplicate or an unknown tag always
fails (whichever error is encountered first in order), so no credential
is produced. -/
theorem create_credential_policy_validation (alist : List (Nat × Nat))
    (tags : List Nat) :
    ((∀ t ∈ tags, (alist.lookup t).isSome) → ¬ tags.Nodup →
      buildPolicyVec alist tags []
        = Except.error "Cannot reveal an attribute more than once.")
    ∧ (tags.Nodup → (∃ t ∈ tags, alist.lookup t = none) →
      buildPolicyVec alist tags []
        = Except.error "Cannot reveal an attribute which is not part of the attribute list.")
    ∧ ((¬ tags.Nodup ∨ ∃ t ∈ tags, alist.lookup t = none) →
      ∃ msg, buildPolicyVec alist tags [] = Except.error msg) := by
  refine ⟨?_, ?_, ?_⟩
  · intro hknown hnd
    rcases buildPolicyVec_allKnown alist tags [] hknown with h | ⟨r, hr⟩
    · exact h
    · exact absurd (buildPolicyVec_ok alist tags [] r hr).1 hnd
  · intro hnd hex
    exact buildPolicyVec_unknown alist tags [] hnd (by simp) hex
  · intro h
    cases hres : buildPolicyVec alist tags [] with
    | error msg => exact ⟨msg, rfl⟩
    | ok r =>
      obtain ⟨hnd, hknown, _⟩ := buildPolicyVec_ok alist tags [] r hres
      rcases h with h | ⟨t, ht, hnone⟩
      · exact absurd hnd h
      · have := hknown t ht
        rw [hnone] at this
        exact absurd this (by simp)

/-- C5 witness: with attribute list `[(0, 5)]` and tag 0 revealed twice,
the operation fails with the duplicate-reveal error. -/
theorem create_credential_policy_validation_witness :
    buildPolicyVec [(0, 5)] [0, 0] []
      = Except.error "Cannot reveal an attribute more than once." :=
  (create_credential_policy_validation [(0, 5)] [0, 0]).1 (by decide) (by decide)

/-- C6: decryption is homomorphic with respect to component-wise
ciphertext addition: decrypting the component-wise sum of two ciphertexts
yields the group sum of the two decryptions. -/
theorem decrypt_aggregate {G : Type} [AddCommGroup G] (sk : SecretKey G)
    (x1 y1 x2 y2 : G) :
    (sk.decrypt (aggregate (Cipher.mk x1 y1) (Cipher.mk x2 y2))).value
      = (sk.decrypt (Cipher.mk x1 y1)).value
        + (sk.decrypt (Cipher.mk x2 y2)).value := by
  simp only [SecretKey.decrypt, aggregate, smul_add]
  abel

/-- C8 counterexample: an error whose message contains an interior NUL
byte makes the `CString::new(..).expect(..)` in `signal_error` abort the
process: `encode_response` returns no outcome at all — neither a success
payload with flag 1 nor an error message with flag 0 — refuting the
claim that every input yields exactly one of the two outcomes. -/
theorem boundary_abort_counterexample :
    encode_response (Except.error (String.mk [Char.ofNat 0])) = none := by
  decide

/-- C8 (amended): whenever a boundary operation returns, the caller
observes exactly one of two outcomes, never both: a success payload with
the flag set to 1, or a single error message with the flag set to 0. The
only way no outcome is returned is the process abort in `signal_error`,
which happens exactly when the response is an error whose formatted
message contains an interior NUL byte; `decrypt_encrypted_amount`, which
never calls `signal_error`, always returns exactly one of the two
outcomes. -/
theorem boundary_exactly_one_outcome (r : Except String String)
    (input_ptr : Option (Option String))
    (aux : String → Except String Nat) :
    (∀ out, encode_response r = some out →
      Xor' (out.1 = 1 ∧ r = Except.ok out.2) (out.1 = 0))
    ∧ (encode_response r = none →
      ∃ e, r = Except.error e ∧ Char.ofNat 0 ∈ e.data)
    ∧ Xor' ((decrypt_encrypted_amount_ffi input_ptr aux).1 = 1
          ∧ ∃ s, input_ptr = some (some s)
            ∧ aux s = Except.ok (decrypt_encrypted_amount_ffi input_ptr aux).2)
      ((decrypt_encrypted_amount_ffi input_ptr aux).1 = 0) := by
  have hlit : CString_new "Could not encode response: interior nul byte found"
      = some "Could not encode response: interior nul byte found" := by decide
  refine ⟨?_, ?_, ?_⟩
  · intro out hout
    cases r with
    | error e =>
      by_cases hnul : Char.ofNat 0 ∈ e.data
      · have hm : CString_new ("Could not produce response: " ++ e) = none := by
          simp [CString_new, hnul]
        have henc : encode_response (Except.error e) = none := by
          simp [encode_response, signal_error, hm]
        rw [henc] at hout
        exact absurd hout (by simp)
      · have hm : CString_new ("Could not produce response: " ++ e)
            = some ("Could not produce response: " ++ e) := by
          simp [CString_new, hnul]
        have henc : encode_response (Except.error e)
            = some (0, "Could not produce response: " ++ e) := by
          simp [encode_response, signal_error, hm]
        rw [henc] at hout
        have hout' := (Option.some.inj hout).symm
        subst hout'
        refine Or.inr ⟨rfl, ?_⟩
        rintro ⟨h1, -⟩
        simp at h1
    | ok s =>
      by_cases hnul : Char.ofNat 0 ∈ s.data
      · have hs : CString_new s = none := by simp [CString_new, hnul]
        have henc : encode_response (Except.ok s)
            = some (0, "Could not encode response: interior nul byte found") := by
          simp [encode_response, signal_error, hs, hlit]
        rw [henc] at hout
        have hout' := (Option.some.inj hout).symm
        subst hout'
        refine Or.inr ⟨rfl, ?_⟩
        rintro ⟨h1, -⟩
        simp at h1
      · have hs : CString_new s = some s := by simp [CString_new, hnul]
        have henc : encode_response (Except.ok s) = some (1, s) := by
          simp [encode_response, hs]
        rw [henc] at hout
        have hout' := (Option.some.inj hout).symm
        subst hout'
        refine Or.inl ⟨⟨rfl, rfl⟩, ?_⟩
        intro h0
        simp at h0
  · intro hnone
    cases r with
    | ok s =>
      exfalso
      by_cases hnul : Char.ofNat 0 ∈ s.data
      · have hs : CString_new s = none := by simp [CString_new, hnul]
        have henc : encode_response (Except.ok s)
            = some (0, "Could not encode response: interior nul byte found") := by
          simp [encode_response, signal_error, hs, hlit]
        rw [henc] at hnone
        exact absurd hnone (by simp)
      · have hs : CString_new s = some s := by simp [CString_new, hnul]
        have henc : encode_response (Except.ok s) = some (1, s) := by
          simp [encode_response, hs]
        rw [henc] at hnone
        exact absurd hnone (by simp)
    | error e =>
      by_cases hnul : Char.ofNat 0 ∈ e.data
      · exact ⟨e, rfl, hnul⟩
      · have hm : CString_new ("Could not produce response: " ++ e)
            = some ("Could not produce response: " ++ e) := by
          simp [CString_new, hnul]
        have henc : encode_response (Except.error e)
            = some (0, "Could not produce response: " ++ e) := by
          simp [encode_response, signal_error, hm]
        rw [henc] at hnone
        exact absurd hnone (by simp)
  · cases input_ptr with
    | none =>
      refine Or.inr ⟨rfl, ?_⟩
      rintro ⟨h1, -⟩
      simp [decrypt_encrypted_amount_ffi] at h1
    | some inner =>
      cases inner with
      | none =>
        refine Or.inr ⟨rfl, ?_⟩
        rintro ⟨h1, -⟩
        simp [decrypt_encrypted_amount_ffi] at h1
      | some s =>
        cases haux : aux s with
        | error e =>
          refine Or.inr ⟨?_, ?_⟩
          · simp [decrypt_encrypted_amount_ffi, haux]
          · rintro ⟨h1, -⟩
            simp [decrypt_encrypted_amount_ffi, haux] at h1
        | ok v =>
          refine Or.inl ⟨⟨?_, s, rfl, ?_⟩, ?_⟩
          · simp [decrypt_encrypted_amount_ffi, haux]
          · simp [decrypt_encrypted_amount_ffi, haux]
          · intro h0
            simp [decrypt_encrypted_amount_ffi, haux] at h0

theorem generate_accounts_loop_ok (q : Nat) (Addr : Type) (g : ZMod q)
    (address_new : ZMod q → Addr) (prf_key : ZMod q) :
    ∀ (count acc_num : Nat), ∃ l,
      generate_accounts_loop q Addr g address_new prf_key acc_num count
        = Except.ok l := by
  intro count
  induction count with
  | zero => intro acc_num; exact ⟨[], rfl⟩
  | succ n ih =>
    intro acc_num
    rw [generate_accounts_loop]
    cases hp : prf q g prf_key acc_num with
    | none => exact ih (acc_num + 1)
    | some reg_id =>
      dsimp only
      have hexp : ∃ s, prf_exponent q prf_key acc_num = some s := by
        unfold prf at hp
        cases he : prf_exponent q prf_key acc_num with
        | none => rw [he] at hp; exact absurd hp (by simp)
        | some s => exact ⟨s, rfl⟩
      obtain ⟨s, hs⟩ := hexp
      rw [hs]
      dsimp only
      obtain ⟨l, hl⟩ := ih (acc_num + 1)
      rw [hl]
      exact ⟨_, rfl⟩

/-- C9: in `generate_accounts`, if the `start` field is absent or fails
to deserialize, the operation does not fail: it behaves identically to an
explicit start of 0 and returns a result. -/
theorem generate_accounts_start_default (q : Nat) (Addr : Type)
    (g : ZMod q) (address_new : ZMod q → Addr) (prf_key : ZMod q)
    (e : String) (max_accounts : Nat) :
    generate_accounts_core q Addr g address_new prf_key
        (Except.error e) max_accounts
      = generate_accounts_core q Addr g address_new prf_key
        (Except.ok 0) max_accounts
    ∧ ∃ l, generate_accounts_core q Addr g address_new prf_key
        (Except.error e) max_accounts = Except.ok l := by
  refine ⟨rfl, ?_⟩
  exact generate_accounts_loop_ok q Addr g address_new prf_key
    (max_accounts - 0) 0

/-- C10: whenever the PRF evaluation succeeds at an account number, the
`prf_exponent` call at the same input also succeeds, so the `.unwrap()`
in `generate_accounts_aux` never panics, and likewise the `.unwrap()` in
`create_id_request_and_private_data_aux` after a successful
registration-ID generation never panics. -/
theorem prf_exponent_unwrap_safe (q : Nat) (Addr : Type) (g k : ZMod q)
    (n : Nat) (address_new : ZMod q → Addr) (acc_num count num_ars : Nat)
    (proofs_ok : Bool) :
    ((prf q g k n).isSome → (prf_exponent q k n).isSome)
    ∧ generate_accounts_loop q Addr g address_new k acc_num count
        ≠ Except.error panicMsg
    ∧ create_id_request_core q Addr g address_new num_ars k proofs_ok
        ≠ Except.error panicMsg := by
  refine ⟨?_, ?_, ?_⟩
  · intro h
    unfold prf at h
    cases he : prf_exponent q k n with
    | none => rw [he] at h; simp at h
    | some s => simp
  · obtain ⟨l, hl⟩ :=
      generate_accounts_loop_ok q Addr g address_new k count acc_num
    rw [hl]
    simp
  · unfold create_id_request_core
    by_cases hars : num_ars > 0
    · have hthr : compute_ar_threshold num_ars
          = Except.ok (max ((u8_try_into (num_ars - 1)).getD 255) 1) := by
        unfold compute_ar_threshold
        rw [if_pos hars]
      rw [hthr]
      dsimp only
      cases hpre : generate_pre_identity q g k proofs_ok with
      | none =>
        intro hcontra
        exact absurd (Except.error.inj hcontra) (by decide)
      | some reg_id =>
        dsimp only
        have hexp : ∃ s, prf_exponent q k 0 = some s := by
          unfold generate_pre_identity at hpre
          cases proofs_ok with
          | false => simp at hpre
          | true =>
            simp only [if_true] at hpre
            unfold prf at hpre
            cases he : prf_exponent q k 0 with
            | none => rw [he] at hpre; exact absurd hpre (by simp)
            | some s => exact ⟨s, rfl⟩
        obtain ⟨s, hs⟩ := hexp
        rw [hs]
        simp
    · have hthr : compute_ar_threshold num_ars
          = Except.error "ArInfos should have at least 1 anonymity revoker." := by
        unfold compute_ar_threshold
        rw [if_neg hars]
      rw [hthr]
      intro hcontra
      exact absurd (Except.error.inj hcontra) (by decide)

/-- C10 witness: at `q = 11`, PRF key 3, account number 2, the PRF
succeeds and so does `prf_exponent`; four enumerated accounts and one
identity request never hit the panic marker. -/
theorem prf_exponent_unwrap_safe_witness :
    (prf_exponent 11 (3 : ZMod 11) 2).isSome
    ∧ generate_accounts_loop 11 Nat 1 (fun a => a.val) 3 0 4
        ≠ Except.error panicMsg
    ∧ create_id_request_core 11 Nat 1 (fun a => a.val) 1 3 true
        ≠ Except.error panicMsg := by
  obtain ⟨h1, h2, h3⟩ :=
    prf_exponent_unwrap_safe 11 Nat 1 3 2 (fun a => a.val) 0 4 1 true
  exact ⟨h1 (by decide), h2, h3⟩

/-- C7: after a successful identity request and a successful credential
creation for a new account with account number 0 and no revealed
attributes, the account address in the response equals
`AccountAddress::new` applied to the credential's registration ID, and
the returned encryption secret key's scalar is `prf_exponent(0)` of the
same PRF key — the one also unwrapped by the identity request. -/
theorem create_credential_end_to_end (q : Nat) (Addr : Type) (g : ZMod q)
    (address_new : ZMod q → Addr) (num_ars : Nat) (prf_key : ZMod q)
    (proofs_ok : Bool) (idresp : IdRequestResponse q Addr)
    (create_credential : Nat → List (Nat × Nat) → Except String (Cdi q))
    (alist : List (Nat × Nat)) (expiry : Nat) (cdi : Cdi q)
    (hid : create_id_request_core q Addr g address_new num_ars prf_key proofs_ok
      = Except.ok idresp)
    (hcc : create_credential 0 [] = Except.ok cdi) :
    ∃ resp,
      create_credential_core q Addr address_new create_credential prf_key
          alist [] 0 expiry
        = Except.ok resp
      ∧ resp.accountAddress = address_new cdi.values.cred_id
      ∧ prf_exponent q prf_key 0 = some resp.encryptionSecretKey_scalar
      ∧ resp.encryptionSecretKey_scalar
        = idresp.encryptionSecretKey_scalar := by
  unfold create_id_request_core at hid
  cases hthr : compute_ar_threshold num_ars with
  | error e => rw [hthr] at hid; exact absurd hid (by simp)
  | ok threshold =>
    rw [hthr] at hid
    dsimp only at hid
    cases hpre : generate_pre_identity q g prf_key proofs_ok with
    | none => rw [hpre] at hid; exact absurd hid (by simp)
    | some reg_id =>
      rw [hpre] at hid
      dsimp only at hid
      cases hexp : prf_exponent q prf_key 0 with
      | none => rw [hexp] at hid; exact absurd hid (by simp)
      | some s =>
        rw [hexp] at hid
        dsimp only at hid
        have hsc : s = idresp.encryptionSecretKey_scalar :=
          congrArg IdRequestResponse.encryptionSecretKey_scalar
            (Except.ok.inj hid)
        refine ⟨⟨address_new cdi.values.cred_id, s, cdi⟩, ?_, rfl, ?_, hsc⟩
        · unfold create_credential_core
          rw [show buildPolicyVec alist [] [] = Except.ok [] from rfl]
          dsimp only
          rw [hcc]
          dsimp only
          rw [hexp]
        · rfl

/-- C7 witness: a concrete run at `q = 11` with PRF key 3, one revoker,
external credential creation returning registration ID 5: the response
address is `address_new 5` and the scalar is the PRF exponent at 0. -/
theorem create_credential_end_to_end_witness :
    ∃ resp,
      create_credential_core 11 Nat (fun a => a.val)
          (fun _ _ => Except.ok (Cdi.mk (CdiValues.mk 5))) 3 [] [] 0 0
        = Except.ok resp
      ∧ resp.accountAddress
        = (fun (a : ZMod 11) => a.val) (Cdi.mk (CdiValues.mk 5)).values.cred_id
      ∧ prf_exponent 11 3 0 = some resp.encryptionSecretKey_scalar
      ∧ resp.encryptionSecretKey_scalar
        = (IdRequestResponse.mk 1 4 4 4
            : IdRequestResponse 11 Nat).encryptionSecretKey_scalar :=
  create_credential_end_to_end 11 Nat 1 (fun a => a.val) 1 3 true
    (IdRequestResponse.mk 1 4 4 4)
    (fun _ _ => Except.ok (Cdi.mk (CdiValues.mk 5))) [] 0
    (Cdi.mk (CdiValues.mk 5)) (by decide) rfl

theorem tableGet_new_hit {G : Type} [AddCommGroup G] [DecidableEq G]
    (g : G) (m x t : Nat)
    (hinj : ∀ a, a < m + x → ∀ b, b < m + x → a • g = b • g → a = b)
    (hm : 1 ≤ m) (ht : t < m) (htx : t ≤ x) :
    tableGet (BabyStepGiantStep.new g m).table (t • g) = some t := by
  unfold tableGet BabyStepGiantStep.new
  have hmem : ((t • g, t) : G × Nat)
      ∈ ((List.range m).map (fun j => (j • g, j))).reverse := by
    rw [List.mem_reverse]
    exact List.mem_map.mpr ⟨t, List.mem_range.mpr ht, rfl⟩
  have hsome : (List.find? (fun p => decide (p.1 = t • g))
      ((List.range m).map (fun j => (j • g, j))).reverse).isSome := by
    rw [List.find?_isSome]
    exact ⟨(t • g, t), hmem, by simp⟩
  obtain ⟨p, hp⟩ := Option.isSome_iff_exists.mp hsome
  have hpmem := List.mem_of_find?_eq_some hp
  have hppred := List.find?_some hp
  rw [List.mem_reverse, List.mem_map] at hpmem
  obtain ⟨j, hj, rfl⟩ := hpmem
  simp only [decide_eq_true_eq] at hppred
  have hj' := List.mem_range.mp hj
  have hjt : j = t := hinj j (by omega) t (by omega) hppred
  subst hjt
  rw [hp]
  rfl

theorem tableGet_new_miss {G : Type} [AddCommGroup G] [DecidableEq G]
    (g : G) (m x t : Nat)
    (hinj : ∀ a, a < m + x → ∀ b, b < m + x → a • g = b • g → a = b)
    (hm : 1 ≤ m) (ht : m ≤ t) (htx : t ≤ x) :
    tableGet (BabyStepGiantStep.new g m).table (t • g) = none := by
  unfold tableGet BabyStepGiantStep.new
  rw [Option.map_eq_none', List.find?_eq_none]
  intro p hpmem hppred
  rw [List.mem_reverse, List.mem_map] at hpmem
  obtain ⟨j, hj, rfl⟩ := hpmem
  simp only [decide_eq_true_eq] at hppred
  have hj' := List.mem_range.mp hj
  have hjt : j = t := hinj j (by omega) t (by omega) hppred
  omega

theorem discrete_log_loop_spec {G : Type} [AddCommGroup G] [DecidableEq G]
    (g : G) (m x : Nat) (hm : 1 ≤ m)
    (hinj : ∀ a, a < m + x → ∀ b, b < m + x → a • g = b • g → a = b) :
    ∀ (fuel i t : Nat), i * m + t = x → t / m < fuel →
      discrete_log_loop (BabyStepGiantStep.new g m) fuel i (t • g)
        = some x := by
  intro fuel
  induction fuel with
  | zero => intro i t _ hf; exact absurd hf (Nat.not_lt_zero _)
  | succ fuel ih =>
    intro i t hx hf
    rw [discrete_log_loop]
    by_cases ht : t < m
    · rw [tableGet_new_hit g m x t hinj hm ht (by omega)]
      exact congrArg some hx
    · push_neg at ht
      rw [tableGet_new_miss g m x t hinj hm ht (by omega)]
      have hy : t • g + (BabyStepGiantStep.new g m).inverse_point
          = (t - m) • g := by
        show t • g + -(m • g) = (t - m) • g
        rw [sub_nsmul g ht]
      dsimp only
      rw [hy]
      have hdiv := Nat.div_eq_sub_div (by omega : 0 < m) ht
      have hmul : (i + 1) * m = i * m + m := by ring
      exact ih (i + 1) (t - m) (by omega) (by omega)

/-- C1: for every group base `g`, table size `m ≥ 1`, and exponent `x`
within the search bound (`x` below `2 ^ 64` and small relative to the
group order, expressed as injectivity of `k ↦ k • g` on the searched
range), `discrete_log` applied to the table built from `(g, m)` and to
the group element `x • g` returns exactly `x`: the `i`-th giant step
hits baby-step entry `x % m` and the function returns
`i * m + (x % m) = x`. -/
theorem discrete_log_correct {G : Type} [AddCommGroup G] [DecidableEq G]
    (g : G) (m x : Nat) (hm : 1 ≤ m) (hx : x < 2 ^ 64)
    (hinj : ∀ a, a < m + x → ∀ b, b < m + x → a • g = b • g → a = b) :
    (BabyStepGiantStep.new g m).discrete_log (x • g) = some x := by
  unfold BabyStepGiantStep.discrete_log
  exact discrete_log_loop_spec g m x hm hinj (2 ^ 64) 0 x (by omega)
    (lt_of_le_of_lt (Nat.div_le_self x m) hx)

/-- C1 witness: in the integers with base 1, table size 3 and exponent 7,
`discrete_log` recovers 7. -/
theorem discrete_log_correct_witness :
    (BabyStepGiantStep.new (1 : ℤ) 3).discrete_log ((7 : Nat) • (1 : ℤ))
      = some 7 :=
  discrete_log_correct 1 3 7 (by decide) (by decide) (by decide)

/-- C8 witness: a concrete successful response, actually returned by
`encode_response`, lands in the flag-1 success outcome, and a concrete
successful decryption lands in the success outcome of its exclusive
pair. -/
theorem boundary_exactly_one_outcome_witness :
    Xor' (((1, "abc") : Nat × String).1 = 1
        ∧ (Except.ok "abc" : Except String String)
          = Except.ok ((1, "abc") : Nat × String).2)
      (((1, "abc") : Nat × String).1 = 0)
    ∧ Xor' ((decrypt_encrypted_amount_ffi (some (some "in"))
            (fun _ => Except.ok 5)).1 = 1
          ∧ ∃ s, (some (some "in") : Option (Option String)) = some (some s)
            ∧ (Except.ok 5 : Except String Nat)
              = Except.ok (decrypt_encrypted_amount_ffi (some (some "in"))
                  (fun _ => Except.ok 5)).2)
      ((decrypt_encrypted_amount_ffi (some (some "in"))
          (fun _ => Except.ok 5)).1 = 0) := by
  obtain ⟨h1, h2, h3⟩ := boundary_exactly_one_outcome (Except.ok "abc")
    (some (some "in")) (fun _ => Except.ok 5)
  exact ⟨h1 (1, "abc") (by decide), h3⟩
